import Mathlib

/-!
Shallow embedding of the simulation core of the `new-year.2026` platformer
(TypeScript sources: `src/types.ts`, `src/entities.ts`, `src/main.ts` (the
`Player` class with invincibility), `src/game.ts` (the `Game` class whose
`playerHit` has sound hooks), and the level parser `level-parser.ts`).

JavaScript numbers are modelled as rationals (`ℚ`); booleans as `Bool`;
`undefined`-able numeric fields as `Option ℚ`.  The JS expression `v || d`
(default on `undefined` or `0`) is modelled by `jsOr`.  `Math.sin` only
enters through `updateJumperEnemy`; the sine value at the current wall-clock
time is abstracted as an explicit `ℚ` argument.
-/

namespace NewYear

/-- `TILE_SIZE` from `level-parser.ts`. -/
def TILE_SIZE : ℚ := 40

/-- The JS expression `v || d` for an optional number: `undefined` and `0`
are falsy, every other number is returned as-is. -/
def jsOr (v : Option ℚ) (d : ℚ) : ℚ :=
  match v with
  | some x => if x = 0 then d else x
  | none => d

/-- Axis-aligned bounds (`Rectangle` in `types.ts`); `y` grows upward. -/
structure Rectangle where
  x : ℚ
  y : ℚ
  width : ℚ
  height : ℚ
deriving DecidableEq, Repr

/-- The `intersects` helper of `entities.ts` (strict AABB overlap). -/
def intersectsb (a b : Rectangle) : Bool :=
  (a.x < b.x + b.width) && (a.x + a.width > b.x) &&
  (a.y < b.y + b.height) && (a.y + a.height > b.y)

/-- Platform kinds (`Platform['type']` in `types.ts`). -/
inductive PlatformType
  | normal
  | moving
  | breakable
  | bouncy
deriving DecidableEq, Repr

/-- `Platform` from `types.ts`: a rectangle plus kind, color and the
optional movement fields used by `moving` platforms. -/
structure Platform where
  x : ℚ
  y : ℚ
  width : ℚ
  height : ℚ
  type : PlatformType
  color : String := ""
  moveRange : Option ℚ := none
  moveSpeed : Option ℚ := none
  startX : Option ℚ := none
  currentVelocityX : Option ℚ := none
deriving DecidableEq, Repr

/-- The bounds of a platform. -/
def Platform.toRect (p : Platform) : Rectangle :=
  ⟨p.x, p.y, p.width, p.height⟩

/-- Enemy kinds.  `types.ts` declares `walker | jumper | static`; the level
parser additionally emits `flyer` (treated by `updateEnemies` like an
unknown kind: no case matches). -/
inductive EnemyType
  | walker
  | jumper
  | enemyStatic
  | flyer
deriving DecidableEq, Repr

/-- `Enemy`: rectangle + velocity + patrol data.  `startY` is written by the
level parser (`level-parser.ts`) even though the `types.ts` interface only
declares `startX`. -/
structure Enemy where
  x : ℚ
  y : ℚ
  width : ℚ
  height : ℚ
  velocityX : ℚ
  velocityY : ℚ
  type : EnemyType
  color : String := ""
  direction : ℤ := 1
  patrolRange : Option ℚ := none
  startX : Option ℚ := none
  startY : Option ℚ := none
  alive : Bool := true
deriving DecidableEq, Repr

/-- The bounds of an enemy. -/
def Enemy.toRect (e : Enemy) : Rectangle :=
  ⟨e.x, e.y, e.width, e.height⟩

/-- `Collectible` from `types.ts`. -/
inductive CollectibleType
  | coin
  | powerup
  | star
deriving DecidableEq, Repr

structure Collectible where
  x : ℚ
  y : ℚ
  width : ℚ
  height : ℚ
  type : CollectibleType
  collected : Bool := false
  color : String := ""
deriving DecidableEq, Repr

/-- The bounds of a collectible. -/
def Collectible.toRect (c : Collectible) : Rectangle :=
  ⟨c.x, c.y, c.width, c.height⟩

/-- `Projectile` from `types.ts`. -/
structure Projectile where
  x : ℚ
  y : ℚ
  width : ℚ
  height : ℚ
  velocityX : ℚ
  velocityY : ℚ
  active : Bool := true
  color : String := ""
deriving DecidableEq, Repr

/-- The bounds of a projectile. -/
def Projectile.toRect (p : Projectile) : Rectangle :=
  ⟨p.x, p.y, p.width, p.height⟩

/-- One step of `updatePlatforms` (`entities.ts` lines 14-32) on a single
platform: `moving` platforms with a defined `startX` store their current
velocity, advance along X, and on overshooting `startX + moveRange` (resp.
falling below `startX`) are clamped to the boundary with `moveSpeed` set to
`-|moveSpeed ∨ 60|` (resp. `|moveSpeed ∨ 60|`).  Other platforms are left
untouched. -/
def updatePlatform (dt : ℚ) (p : Platform) : Platform :=
  if p.type = PlatformType.moving ∧ p.startX.isSome then
    let sx := p.startX.getD 0
    let velocity := jsOr p.moveSpeed 60
    let p1 : Platform :=
      { p with currentVelocityX := some velocity, x := p.x + velocity * dt }
    let moveRange := jsOr p.moveRange 100
    if p1.x > sx + moveRange then
      { p1 with x := sx + moveRange, moveSpeed := some (-|jsOr p.moveSpeed 60|) }
    else if p1.x < sx then
      { p1 with x := sx, moveSpeed := some |jsOr p.moveSpeed 60| }
    else p1
  else p

/-- `updatePlatforms` (`entities.ts`): the in-place mutation over the array is
modelled as a map over the list. -/
def updatePlatforms (platforms : List Platform) (dt : ℚ) : List Platform :=
  platforms.map (updatePlatform dt)

/-- `updateJumperEnemy` (`entities.ts` lines 88-92):
`enemy.y = (enemy.startX || enemy.y) + Math.sin(Date.now() / 500) * 20`.
`sinT` stands for the value of `Math.sin(Date.now() / 500)` at the current
wall-clock time. -/
def updateJumperEnemy (sinT : ℚ) (e : Enemy) : Enemy :=
  { e with y := jsOr e.startX e.y + sinT * 20 }

/-- Result record of `checkEnemyCollision`. -/
structure EnemyCollisionResult where
  hit : Bool
  stomped : Bool
  enemy : Option Enemy
deriving DecidableEq, Repr

/-- `checkEnemyCollision` (`entities.ts` lines 146-167).  The source performs
no writes to the enemies array, so the embedding is a pure function of the
list: first living intersecting enemy wins; it is a stomp when
`playerBottom < enemyTop + 10` and the horizontal centers differ by less
than `enemy.width * 0.6`. -/
def checkEnemyCollision (playerBounds : Rectangle) : List Enemy → EnemyCollisionResult
  | [] => ⟨false, false, none⟩
  | e :: rest =>
    if e.alive = false then checkEnemyCollision playerBounds rest
    else if intersectsb playerBounds e.toRect then
      let playerBottom := playerBounds.y
      let enemyTop := e.y + e.height
      let playerCenterX := playerBounds.x + playerBounds.width / 2
      let enemyCenterX := e.x + e.width / 2
      if playerBottom < enemyTop + 10 ∧ |playerCenterX - enemyCenterX| < e.width * 0.6 then
        ⟨true, true, some e⟩
      else ⟨true, false, some e⟩
    else checkEnemyCollision playerBounds rest

/-- `checkProjectileCollision` (`entities.ts` lines 133-143).  The mutation
(`projectile.active = false` on the first active hit) is modelled by
returning the updated list alongside the boolean result. -/
def checkProjectileCollision (playerBounds : Rectangle) :
    List Projectile → Bool × List Projectile
  | [] => (false, [])
  | p :: rest =>
    if p.active = false then
      let r := checkProjectileCollision playerBounds rest
      (r.1, p :: r.2)
    else if intersectsb playerBounds p.toRect then
      (true, { p with active := false } :: rest)
    else
      let r := checkProjectileCollision playerBounds rest
      (r.1, p :: r.2)

/-- `checkCollectiblePickup` (`entities.ts` lines 170-181): the first
uncollected intersecting collectible is marked collected and returned. -/
def checkCollectiblePickup (playerBounds : Rectangle) :
    List Collectible → Option Collectible × List Collectible
  | [] => (none, [])
  | c :: rest =>
    if c.collected = true then
      let r := checkCollectiblePickup playerBounds rest
      (r.1, c :: r.2)
    else if intersectsb playerBounds c.toRect then
      (some { c with collected := true }, { c with collected := true } :: rest)
    else
      let r := checkCollectiblePickup playerBounds rest
      (r.1, c :: r.2)

/-- `InputState` from `types.ts`. -/
structure InputState where
  left : Bool
  right : Bool
  jump : Bool
  jumpPressed : Bool
deriving DecidableEq, Repr

/-- The `Player` class of `main.ts` (the version with invincibility,
lines 240-545): mutable fields only; the physics constants are below. -/
structure Player where
  x : ℚ
  y : ℚ
  width : ℚ := 32
  height : ℚ := 40
  velocityX : ℚ := 0
  velocityY : ℚ := 0
  isOnGround : Bool := false
  canJump : Bool := true
  facingRight : Bool := true
  isAlive : Bool := true
  isInvincible : Bool := false
  invincibilityTimer : ℚ := 0
  hitFlashTimer : ℚ := 0
  currentPlatform : Option Platform := none
  color : String := "#3498db"
deriving DecidableEq, Repr

namespace Player

def GRAVITY : ℚ := 1100
def JUMP_FORCE : ℚ := 520
def BOUNCE_FORCE : ℚ := 650
def MOVE_SPEED : ℚ := 340
def MAX_FALL_SPEED : ℚ := 800
def ACCELERATION : ℚ := 2200
def FRICTION : ℚ := 1500
def AIR_CONTROL : ℚ := 3 / 4
def INVINCIBILITY_DURATION : ℚ := 2
def HIT_FLASH_DURATION : ℚ := 3 / 20
def baseColor : String := "#3498db"

/-- `getBounds()`. -/
def getBounds (p : Player) : Rectangle :=
  ⟨p.x, p.y, p.width, p.height⟩

/-- `die()`. -/
def die (p : Player) : Player :=
  { p with isAlive := false, color := "#7f8c8d" }

/-- `hit()` (`main.ts` lines 443-455): a no-op while invincible, otherwise
starts the invincibility and hit-flash timers and applies the upward
knockback `velocityY = 200`. -/
def hit (p : Player) : Player :=
  if p.isInvincible then p
  else
    { p with
      isInvincible := true
      invincibilityTimer := INVINCIBILITY_DURATION
      hitFlashTimer := HIT_FLASH_DURATION
      velocityY := 200 }

/-- `respawn(x, y)` (`main.ts` lines 457-467). -/
def respawn (p : Player) (x y : ℚ) : Player :=
  { p with
    x := x - p.width / 2
    y := y - p.height / 2
    velocityX := 0
    velocityY := 0
    isAlive := true
    color := baseColor
    isInvincible := false
    invincibilityTimer := 0
    hitFlashTimer := 0 }

/-- `resetInvincibility()`. -/
def resetInvincibility (p : Player) : Player :=
  { p with isInvincible := true, invincibilityTimer := INVINCIBILITY_DURATION }

/-- `intersectsFromAbove(platform)` (`main.ts` lines 388-407): horizontal
overlap, and the player's bottom within `[platform.y - 10, platformTop]`
with the player's top above the platform top. -/
def intersectsFromAbove (p : Player) (plat : Platform) : Bool :=
  let playerBottom := p.y
  let playerTop := p.y + p.height
  let platformTop := plat.y + plat.height
  let horizontalOverlap :=
    (p.x < plat.x + plat.width) && (p.x + p.width > plat.x)
  let verticalLanding :=
    (playerBottom ≤ platformTop) && (playerBottom ≥ plat.y - 10) && (playerTop > platformTop)
  horizontalOverlap && verticalLanding

/-- The landing loop of `update` (`main.ts` lines 361-380): while falling
(`velocityY < 0`), the first platform intersected from above snaps the
player onto its top, grounds it and records it; a `bouncy` platform instead
applies the bounce velocity without grounding.  Only the first matching
platform is applied (`break`). -/
def landingLoop (p : Player) : List Platform → Player
  | [] => p
  | plat :: rest =>
    if p.velocityY < 0 ∧ p.intersectsFromAbove plat then
      let p1 := { p with y := plat.y + plat.height, isOnGround := true,
                         currentPlatform := some plat }
      if plat.type = PlatformType.bouncy then
        { p1 with velocityY := BOUNCE_FORCE, isOnGround := false, currentPlatform := none }
      else
        { p1 with velocityY := 0 }
    else p.landingLoop rest

/-- Invincibility- and hit-flash-timer updates (`main.ts` lines 291-303). -/
def timersStep (dt : ℚ) (p : Player) : Player :=
  let p :=
    if p.isInvincible then
      let t := p.invincibilityTimer - dt
      if t ≤ 0 then { p with isInvincible := false, invincibilityTimer := 0 }
      else { p with invincibilityTimer := t }
    else p
  if p.hitFlashTimer > 0 then { p with hitFlashTimer := p.hitFlashTimer - dt } else p

/-- Moving-platform drag (`main.ts` lines 305-308): applied when standing on
a `moving` platform whose `currentVelocityX` is truthy (defined and
nonzero). -/
def dragStep (dt : ℚ) (p : Player) : Player :=
  match p.currentPlatform with
  | some pl =>
    if pl.type = PlatformType.moving ∧ pl.currentVelocityX.getD 0 ≠ 0 then
      { p with x := p.x + pl.currentVelocityX.getD 0 * dt }
    else p
  | none => p

/-- Horizontal acceleration / friction (`main.ts` lines 310-324). -/
def horizontalStep (dt control : ℚ) (input : InputState) (p : Player) : Player :=
  if input.left then
    { p with velocityX := p.velocityX - ACCELERATION * control * dt, facingRight := false }
  else if input.right then
    { p with velocityX := p.velocityX + ACCELERATION * control * dt, facingRight := true }
  else if p.velocityX > 0 then
    { p with velocityX := max 0 (p.velocityX - FRICTION * dt) }
  else if p.velocityX < 0 then
    { p with velocityX := min 0 (p.velocityX + FRICTION * dt) }
  else p

/-- Horizontal velocity clamp (`main.ts` line 327). -/
def clampVelX (p : Player) : Player :=
  { p with velocityX := max (-MOVE_SPEED) (min MOVE_SPEED p.velocityX) }

/-- The jump trigger (`main.ts` lines 330-335). -/
def jumpStep (input : InputState) (p : Player) : Player :=
  if input.jump && input.jumpPressed && p.canJump && p.isOnGround then
    { p with velocityY := JUMP_FORCE, isOnGround := false, canJump := false,
             currentPlatform := none }
  else p

/-- Jump-latch release (`main.ts` lines 338-340). -/
def jumpReset (input : InputState) (p : Player) : Player :=
  if input.jump = false then { p with canJump := true } else p

/-- Gravity and fall-speed clamp (`main.ts` lines 343-346). -/
def gravityStep (dt : ℚ) (p : Player) : Player :=
  let p := { p with velocityY := p.velocityY - GRAVITY * dt }
  { p with velocityY := max (-MAX_FALL_SPEED) p.velocityY }

/-- Position integration, horizontal then vertical (`main.ts` lines 349-355). -/
def integrateStep (dt : ℚ) (p : Player) : Player :=
  let p := { p with x := p.x + p.velocityX * dt }
  { p with y := p.y + p.velocityY * dt }

/-- The grounded-state reset followed by the landing loop
(`main.ts` lines 358-380). -/
def collisionStep (platforms : List Platform) (p : Player) : Player :=
  landingLoop { p with isOnGround := false, currentPlatform := none } platforms

/-- Fell-off-world check (`main.ts` lines 383-385). -/
def deathStep (p : Player) : Player :=
  if p.y < -100 then p.die else p

/-- `Player.update(deltaTime, input, platforms)` (`main.ts` lines 285-386):
an early return for dead players, then the per-frame phases in source
order.  `control` is computed from the grounded flag before any step runs,
as in the source. -/
def update (p : Player) (dt : ℚ) (input : InputState) (platforms : List Platform) : Player :=
  if p.isAlive = false then p
  else
    let control : ℚ := if p.isOnGround then 1 else AIR_CONTROL
    deathStep <| collisionStep platforms <| integrateStep dt <| gravityStep dt <|
      jumpReset input <| jumpStep input <| clampVelX <|
      horizontalStep dt control input <| dragStep dt <| timersStep dt p

end Player

/-- `GameState` from `types.ts`. -/
structure GameState where
  score : ℤ
  lives : ℤ
  gameOver : Bool
  won : Bool
  paused : Bool
deriving DecidableEq, Repr

/-- The screen states of `game.ts`. -/
inductive ScreenState
  | intro
  | playing
  | gameover
  | won
deriving DecidableEq, Repr

/-- The slice of the `Game` object that `playerHit` touches. -/
structure Session where
  state : GameState
  screenState : ScreenState
  player : Player
  screenShakeTimer : ℚ
deriving DecidableEq, Repr

/-- `Game.playerHit` (`game.ts` lines 316-331): a no-op while the player is
invincible; otherwise decrement `lives`; at `lives ≤ 0` set `gameOver` and
switch to the `gameover` screen, else apply `Player.hit` and start the
screen shake.  The sound and listener calls are external effects. -/
def playerHit (s : Session) : Session :=
  if s.player.isInvincible then s
  else
    let lives := s.state.lives - 1
    if lives ≤ 0 then
      { s with
        state := { s.state with lives := lives, gameOver := true }
        screenState := ScreenState.gameover }
    else
      { s with
        state := { s.state with lives := lives }
        player := s.player.hit
        screenShakeTimer := 1 / 5 }

/-- The outcome of the invincibility window fully elapsing between hits:
`Player.update`, once the timer has run down, sets `isInvincible := false`
and `invincibilityTimer := 0` (`main.ts` lines 292-298). -/
def expireInvincibility (s : Session) : Session :=
  { s with player := { s.player with isInvincible := false, invincibilityTimer := 0 } }

/-- The platform-glyph rows of the `TILE_TYPES` table (`types.ts`): the two
normal-platform glyphs, `~` moving, `○` bouncy, `╳` breakable.  Every other
character decodes to a non-platform tile or to empty, and produces no
platform cell. -/
def platformGlyph (c : Char) : Option PlatformType :=
  if c = '▓' then some PlatformType.normal
  else if c = '═' then some PlatformType.normal
  else if c = '~' then some PlatformType.moving
  else if c = '○' then some PlatformType.bouncy
  else if c = '╳' then some PlatformType.breakable
  else none

/-- A merged horizontal run of same-kind platform cells (`parseLevel`). -/
structure PlatRun where
  startCol : ℕ
  endCol : ℕ
  type : PlatformType
deriving DecidableEq, Repr

/-- Adding one platform cell at column `col` to the run list (`parseLevel`
lines 77-89): extend the most recent run when it ends at `col - 1` with
the same kind, otherwise open a new run.  The accumulator keeps the most
recent run first; `scanRowGo` reverses at the end. -/
def addPlatformCell (runs : List PlatRun) (col : ℕ) (t : PlatformType) : List PlatRun :=
  match runs with
  | r :: rest =>
    if r.endCol + 1 = col ∧ r.type = t then { r with endCol := col } :: rest
    else ⟨col, col, t⟩ :: r :: rest
  | [] => [⟨col, col, t⟩]

/-- The per-row scan of `parseLevel`: walk the cells left to right, feeding
each platform cell to `addPlatformCell`. -/
def scanRowGo (cells : List Char) (col : ℕ) (acc : List PlatRun) : List PlatRun :=
  match cells with
  | [] => acc
  | c :: cs =>
    match platformGlyph c with
    | some t => scanRowGo cs (col + 1) (addPlatformCell acc col t)
    | none => scanRowGo cs (col + 1) acc

/-- The merged platform runs of one level row, oldest first. -/
def scanRow (cells : List Char) : List PlatRun :=
  (scanRowGo cells 0 []).reverse

/-- Materializing one platform from a merged run (`parseLevel` lines
160-185): `x = startCol * TILE_SIZE`, `width = (endCol - startCol + 1) *
TILE_SIZE`, height a 0.4 fraction of the tile; `moving` runs get the
movement fields. -/
def runPlatform (gameY : ℚ) (r : PlatRun) : Platform :=
  let base : Platform :=
    { x := (r.startCol : ℚ) * TILE_SIZE
      y := gameY
      width := ((r.endCol - r.startCol + 1 : ℕ) : ℚ) * TILE_SIZE
      height := TILE_SIZE * 0.4
      type := r.type
      color := "" }
  if r.type = PlatformType.moving then
    { base with
      moveRange := some (TILE_SIZE * 3)
      moveSpeed := some 80
      startX := some base.x
      currentVelocityX := some 0 }
  else base

/-- All platforms decoded from one level row placed at world height
`gameY`. -/
def rowPlatforms (gameY : ℚ) (cells : List Char) : List Platform :=
  (scanRow cells).map (runPlatform gameY)

/-- The platform output of `parseLevel` on a whole level text, given the
text already split into lines (the source preprocesses with
`asciiLevel.trim().split('\n')`): rows are scanned top to bottom and row
`row` of `n` lands at world Y `(n - 1 - row) * TILE_SIZE`. -/
def parseLevelPlatforms (lines : List String) : List Platform :=
  (List.range lines.length).flatMap fun row =>
    rowPlatforms (((lines.length - 1 - row : ℕ) : ℚ) * TILE_SIZE)
      ((lines.getD row "").data)

/-- The enemy literal `parseLevel` pushes for an enemy glyph at world cell
position `(gameX, gameY)` (`level-parser.ts` lines 91-119). -/
def decodeEnemy (t : EnemyType) (gameX gameY : ℚ) : Enemy :=
  { x := gameX
    y := gameY
    width := TILE_SIZE * 0.8
    height := TILE_SIZE * 0.8
    velocityX := if t = EnemyType.walker then 120 else if t = EnemyType.flyer then 100 else 0
    velocityY := 0
    type := t
    color := "#c94c4c"
    direction := 1
    patrolRange := some (if t = EnemyType.walker then TILE_SIZE * 4 else TILE_SIZE * 3)
    startX := some gameX
    startY := some gameY
    alive := true }

/-! ## Helper lemmas -/

/-- `v || d` never returns `0` when the default is nonzero. -/
theorem jsOr_ne_zero (v : Option ℚ) (d : ℚ) (hd : d ≠ 0) : jsOr v d ≠ 0 := by
  cases v with
  | none => simpa [jsOr] using hd
  | some x =>
    by_cases hx : x = 0 <;> simp [jsOr, hx, hd]

/-- The landing loop does nothing unless the player is falling. -/
theorem landingLoop_eq_self_of_nonneg (p : Player) (platforms : List Platform)
    (h : 0 ≤ p.velocityY) : p.landingLoop platforms = p := by
  induction platforms with
  | nil => rfl
  | cons plat rest ih =>
    rw [Player.landingLoop, if_neg, ih]
    intro hcon
    exact absurd hcon.1 (not_lt.mpr h)

/-! ## Claim theorems -/

/-- Concrete fixture for the C1 witness: a player overlapping a platform
with zero vertical velocity. -/
def restingPlayer : Player :=
  { x := 0, y := 10, velocityY := 0, isOnGround := true }

def underPlatform : Platform :=
  { x := 0, y := 0, width := 100, height := 16, type := PlatformType.normal }

/-- C1: for every platform in the list passed to `Player.update` and every
player state with `velocityY ≥ 0` at collision-check time, the vertical
collision resolution (the landing loop) performs no change: the position is
not snapped and no grounding or platform reference is recorded, even if
bounding boxes overlap. -/
theorem landing_is_one_way (p : Player) (platforms : List Platform)
    (h : 0 ≤ p.velocityY) : p.landingLoop platforms = p :=
  landingLoop_eq_self_of_nonneg p platforms h

/-- Witness for C1: the fixture player overlaps the platform (both as plain
AABBs and in the landing zone) yet the loop leaves it unchanged. -/
theorem landing_is_one_way_witness :
    intersectsb restingPlayer.getBounds underPlatform.toRect = true ∧
    restingPlayer.intersectsFromAbove underPlatform = true ∧
    restingPlayer.landingLoop [underPlatform] = restingPlayer :=
  ⟨by norm_num [intersectsb, Player.getBounds, Platform.toRect, restingPlayer, underPlatform],
   by norm_num [Player.intersectsFromAbove, restingPlayer, underPlatform],
   landing_is_one_way restingPlayer [underPlatform] (by norm_num [restingPlayer])⟩

/-- Concrete fixture for the C5 witness: an invincible player. -/
def invinciblePlayer : Player :=
  { x := 5, y := 7, isInvincible := true, invincibilityTimer := 1 }

/-- C5: `Player.hit` is a no-op (every field unchanged) while the player is
already invincible; consequently a second `hit` inside the invincibility
window changes nothing. -/
theorem hit_noop_when_invincible (p : Player) (h : p.isInvincible = true) :
    p.hit = p ∧ ∀ q : Player, q.hit.hit = q.hit := by
  constructor
  · simp [Player.hit, h]
  · intro q
    by_cases hq : q.isInvincible
    · simp [Player.hit, hq]
    · simp [Player.hit, hq]

/-- Witness for C5. -/
theorem hit_noop_when_invincible_witness :
    invinciblePlayer.hit = invinciblePlayer :=
  (hit_noop_when_invincible invinciblePlayer rfl).1

/-- Concrete fixtures for the C10 witness. -/
def deadPlayer : Player :=
  { x := 3, y := 4, velocityX := 17, velocityY := -5, isAlive := false }

def idleInput : InputState := ⟨false, false, false, false⟩

/-- C10: a dead player (`isAlive = false`) is completely frozen by
`Player.update` — the call returns the state unchanged for every
`deltaTime`, input and platform list — and of the player operations only
`respawn` sets `isAlive` back to `true` (`hit`, `die` and
`resetInvincibility` leave a dead player dead). -/
theorem dead_player_frozen (p : Player) (dt : ℚ) (input : InputState)
    (platforms : List Platform) (h : p.isAlive = false) :
    p.update dt input platforms = p ∧
    p.hit.isAlive = false ∧
    p.die.isAlive = false ∧
    p.resetInvincibility.isAlive = false ∧
    ∀ x y : ℚ, (p.respawn x y).isAlive = true := by
  refine ⟨by simp [Player.update, h], ?_, rfl, h, fun x y => rfl⟩
  unfold Player.hit
  split <;> simp [h]

/-- Witness for C10. -/
theorem dead_player_frozen_witness :
    deadPlayer.update 1 idleInput [underPlatform] = deadPlayer :=
  (dead_player_frozen deadPlayer 1 idleInput [underPlatform] rfl).1

/-- C9: the code contradicts the claim (and its own comment).  The level
parser stores the spawn X in `startX` and the spawn Y in `startY`, while
`updateJumperEnemy` oscillates around `enemy.startX || enemy.y` — so a
jumper decoded at `(gameX, gameY) = (80, 200)` bounces around `80` (its X
coordinate), not around the stored base height `200`.  `sinT` is the sine
value of the current time; at a time with `sin(t/500) = 0` the enemy's `y`
becomes exactly `80`. -/
theorem jumper_oscillates_around_startX :
    (updateJumperEnemy 0 (decodeEnemy EnemyType.jumper 80 200)).y = 80 ∧
    (decodeEnemy EnemyType.jumper 80 200).startY = some 200 ∧
    (80 : ℚ) ≠ 200 ∧
    ∀ sinT : ℚ,
      (updateJumperEnemy sinT (decodeEnemy EnemyType.jumper 80 200)).y = 80 + sinT * 20 := by
  refine ⟨?_, rfl, by norm_num, fun sinT => ?_⟩
  · norm_num [updateJumperEnemy, decodeEnemy, jsOr]
  · norm_num [updateJumperEnemy, decodeEnemy, jsOr]

/-- Concrete fixture for the C6 witness: a fresh session with three lives. -/
def freshSession : Session :=
  { state := { score := 0, lives := 3, gameOver := false, won := false, paused := false }
    screenState := ScreenState.playing
    player := { x := 0, y := 0 }
    screenShakeTimer := 0 }

/-- C6: every non-invincible `playerHit` decrements `lives` by exactly one;
while the new `lives` is still positive the session applies `Player.hit`
without ending (`gameOver` and the screen state are untouched); when it
reaches `0` the session sets `gameOver := true` and switches to the
gameover screen.  Three non-invincible hits from `lives = 3`, with the
invincibility window fully elapsed between them, drive `lives` to `0` and
`gameOver` to `true`. -/
theorem three_lives_exhausted (s : Session) (hinv : s.player.isInvincible = false) :
    (playerHit s).state.lives = s.state.lives - 1 ∧
    (0 < s.state.lives - 1 →
      (playerHit s).state.gameOver = s.state.gameOver ∧
      (playerHit s).screenState = s.screenState ∧
      (playerHit s).player = s.player.hit) ∧
    (s.state.lives - 1 ≤ 0 →
      (playerHit s).state.gameOver = true ∧
      (playerHit s).screenState = ScreenState.gameover) ∧
    (s.state.lives = 3 →
      (playerHit (expireInvincibility
        (playerHit (expireInvincibility (playerHit s))))).state.lives = 0 ∧
      (playerHit (expireInvincibility
        (playerHit (expireInvincibility (playerHit s))))).state.gameOver = true) := by
  refine ⟨?_, ?_, ?_, ?_⟩
  · simp only [playerHit, hinv, Bool.false_eq_true, if_false]
    split_ifs <;> rfl
  · intro hpos
    simp only [playerHit, hinv, Bool.false_eq_true, if_false]
    rw [if_neg (by omega)]
    exact ⟨rfl, rfl, rfl⟩
  · intro hle
    simp only [playerHit, hinv, Bool.false_eq_true, if_false]
    rw [if_pos hle]
    exact ⟨rfl, rfl⟩
  · intro h3
    simp [playerHit, expireInvincibility, hinv, h3]

/-- Witness for C6: the three-hit scenario on a concrete fresh session. -/
theorem three_lives_exhausted_witness :
    (playerHit (expireInvincibility
      (playerHit (expireInvincibility (playerHit freshSession))))).state.lives = 0 ∧
    (playerHit (expireInvincibility
      (playerHit (expireInvincibility (playerHit freshSession))))).state.gameOver = true :=
  (three_lives_exhausted freshSession rfl).2.2.2 rfl

/-- Unfolding step of `checkProjectileCollision` on a skipped head (inactive
or not intersecting). -/
theorem checkProjectileCollision_cons_skip (pb : Rectangle) (p : Projectile)
    (rest : List Projectile)
    (h : p.active = false ∨ intersectsb pb p.toRect = false) :
    checkProjectileCollision pb (p :: rest) =
      ((checkProjectileCollision pb rest).1, p :: (checkProjectileCollision pb rest).2) := by
  rcases h with h | h
  · simp [checkProjectileCollision, h]
  · by_cases hpa : p.active = false <;> simp [checkProjectileCollision, hpa, h]

/-- Characterization of `checkProjectileCollision`: either no active
projectile intersects the player and both the result flag and the list are
unchanged, or the list splits around the first active intersecting
projectile, which alone gets `active := false`. -/
theorem checkProjectileCollision_spec (pb : Rectangle) (l : List Projectile) :
    (checkProjectileCollision pb l = (false, l) ∧
      ∀ q ∈ l, ¬(q.active = true ∧ intersectsb pb q.toRect = true)) ∨
    (∃ a p b, l = a ++ p :: b ∧
      (∀ q ∈ a, ¬(q.active = true ∧ intersectsb pb q.toRect = true)) ∧
      p.active = true ∧ intersectsb pb p.toRect = true ∧
      checkProjectileCollision pb l = (true, a ++ { p with active := false } :: b)) := by
  induction l with
  | nil => exact Or.inl ⟨rfl, by simp⟩
  | cons p rest ih =>
    by_cases hpa : p.active = true
    · by_cases hpi : intersectsb pb p.toRect = true
      · refine Or.inr ⟨[], p, rest, by simp, by simp, hpa, hpi, ?_⟩
        simp [checkProjectileCollision, hpa, hpi]
      · have hstep := checkProjectileCollision_cons_skip pb p rest
          (Or.inr (by simpa using hpi))
        rcases ih with ⟨heq, hall⟩ | ⟨a, q, b, hsplit, hfront, hqa, hqi, heq⟩
        · refine Or.inl ⟨?_, ?_⟩
          · rw [hstep, heq]
          · intro q hq
            rcases List.mem_cons.mp hq with rfl | hq
            · exact fun hc => hpi hc.2
            · exact hall q hq
        · refine Or.inr ⟨p :: a, q, b, by simp [hsplit], ?_, hqa, hqi, ?_⟩
          · intro r hr
            rcases List.mem_cons.mp hr with rfl | hr
            · exact fun hc => hpi hc.2
            · exact hfront r hr
          · rw [hstep, heq]
            simp
    · have hpa' : p.active = false := by simpa using hpa
      have hstep := checkProjectileCollision_cons_skip pb p rest (Or.inl hpa')
      rcases ih with ⟨heq, hall⟩ | ⟨a, q, b, hsplit, hfront, hqa, hqi, heq⟩
      · refine Or.inl ⟨?_, ?_⟩
        · rw [hstep, heq]
        · intro q hq
          rcases List.mem_cons.mp hq with rfl | hq
          · exact fun hc => hpa hc.1
          · exact hall q hq
      · refine Or.inr ⟨p :: a, q, b, by simp [hsplit], ?_, hqa, hqi, ?_⟩
        · intro r hr
          rcases List.mem_cons.mp hr with rfl | hr
          · exact fun hc => hpa hc.1
          · exact hfront r hr
        · rw [hstep, heq]
          simp

/-- Unfolding step of `checkCollectiblePickup` on a skipped head. -/
theorem checkCollectiblePickup_cons_skip (pb : Rectangle) (c : Collectible)
    (rest : List Collectible)
    (h : c.collected = true ∨ intersectsb pb c.toRect = false) :
    checkCollectiblePickup pb (c :: rest) =
      ((checkCollectiblePickup pb rest).1, c :: (checkCollectiblePickup pb rest).2) := by
  rcases h with h | h
  · simp [checkCollectiblePickup, h]
  · by_cases hc : c.collected = true <;> simp [checkCollectiblePickup, hc, h]

/-- Characterization of `checkCollectiblePickup`: either nothing is picked
up and the list is unchanged, or the list splits around the first
uncollected intersecting collectible, which alone gets `collected := true`
and is returned. -/
theorem checkCollectiblePickup_spec (pb : Rectangle) (l : List Collectible) :
    (checkCollectiblePickup pb l = (none, l) ∧
      ∀ q ∈ l, ¬(q.collected = false ∧ intersectsb pb q.toRect = true)) ∨
    (∃ a c b, l = a ++ c :: b ∧
      (∀ q ∈ a, ¬(q.collected = false ∧ intersectsb pb q.toRect = true)) ∧
      c.collected = false ∧ intersectsb pb c.toRect = true ∧
      checkCollectiblePickup pb l =
        (some { c with collected := true }, a ++ { c with collected := true } :: b)) := by
  induction l with
  | nil => exact Or.inl ⟨rfl, by simp⟩
  | cons c rest ih =>
    by_cases hcc : c.collected = true
    · have hstep := checkCollectiblePickup_cons_skip pb c rest (Or.inl hcc)
      rcases ih with ⟨heq, hall⟩ | ⟨a, q, b, hsplit, hfront, hqc, hqi, heq⟩
      · refine Or.inl ⟨?_, ?_⟩
        · rw [hstep, heq]
        · intro q hq
          rcases List.mem_cons.mp hq with rfl | hq
          · exact fun hcon => by simp [hcc] at hcon
          · exact hall q hq
      · refine Or.inr ⟨c :: a, q, b, by simp [hsplit], ?_, hqc, hqi, ?_⟩
        · intro r hr
          rcases List.mem_cons.mp hr with rfl | hr
          · exact fun hcon => by simp [hcc] at hcon
          · exact hfront r hr
        · rw [hstep, heq]
          simp
    · have hcc' : c.collected = false := by simpa using hcc
      by_cases hci : intersectsb pb c.toRect = true
      · refine Or.inr ⟨[], c, rest, by simp, by simp, hcc', hci, ?_⟩
        simp [checkCollectiblePickup, hcc', hci]
      · have hstep := checkCollectiblePickup_cons_skip pb c rest
          (Or.inr (by simpa using hci))
        rcases ih with ⟨heq, hall⟩ | ⟨a, q, b, hsplit, hfront, hqc, hqi, heq⟩
        · refine Or.inl ⟨?_, ?_⟩
          · rw [hstep, heq]
          · intro q hq
            rcases List.mem_cons.mp hq with rfl | hq
            · exact fun hcon => hci hcon.2
            · exact hall q hq
        · refine Or.inr ⟨c :: a, q, b, by simp [hsplit], ?_, hqc, hqi, ?_⟩
          · intro r hr
            rcases List.mem_cons.mp hr with rfl | hr
            · exact fun hcon => hci hcon.2
            · exact hfront r hr
          · rw [hstep, heq]
            simp

/-- C8: the collision queries never resize the entity collections, and
their only mutations are the documented flag writes: the first active
projectile intersecting the player gets `active := false` (all others
returned untouched, all other fields intact), the first uncollected
intersecting collectible gets `collected := true`, and when no entity
matches the lists come back exactly as passed.  `checkEnemyCollision` is
embedded as a pure function because the source performs no writes there. -/
theorem collision_queries_frame (pb : Rectangle) (projs : List Projectile)
    (cols : List Collectible) :
    (checkProjectileCollision pb projs).2.length = projs.length ∧
    (checkCollectiblePickup pb cols).2.length = cols.length ∧
    ((checkProjectileCollision pb projs = (false, projs) ∧
        ∀ q ∈ projs, ¬(q.active = true ∧ intersectsb pb q.toRect = true)) ∨
      (∃ a p b, projs = a ++ p :: b ∧
        (∀ q ∈ a, ¬(q.active = true ∧ intersectsb pb q.toRect = true)) ∧
        p.active = true ∧ intersectsb pb p.toRect = true ∧
        checkProjectileCollision pb projs = (true, a ++ { p with active := false } :: b))) ∧
    ((checkCollectiblePickup pb cols = (none, cols) ∧
        ∀ q ∈ cols, ¬(q.collected = false ∧ intersectsb pb q.toRect = true)) ∨
      (∃ a c b, cols = a ++ c :: b ∧
        (∀ q ∈ a, ¬(q.collected = false ∧ intersectsb pb q.toRect = true)) ∧
        c.collected = false ∧ intersectsb pb c.toRect = true ∧
        checkCollectiblePickup pb cols =
          (some { c with collected := true }, a ++ { c with collected := true } :: b))) := by
  refine ⟨?_, ?_, checkProjectileCollision_spec pb projs, checkCollectiblePickup_spec pb cols⟩
  · rcases checkProjectileCollision_spec pb projs with ⟨heq, -⟩ | ⟨a, p, b, hsplit, -, -, -, heq⟩
    · rw [heq]
    · rw [heq, hsplit]
      simp
  · rcases checkCollectiblePickup_spec pb cols with ⟨heq, -⟩ | ⟨a, c, b, hsplit, -, -, -, heq⟩
    · rw [heq]
    · rw [heq, hsplit]
      simp

/-- Concrete fixture for C2: a living walker enemy on the unit tile at the
origin. -/
def enemyC2 : Enemy :=
  { x := 0, y := 0, width := 40, height := 40, velocityX := 0, velocityY := 0,
    type := EnemyType.walker }

/-- C2 counterexample: the player bounds sit with the bottom edge strictly
above the enemy top within the 10-unit tolerance and horizontally dead
center (well inside 60% of the half-width), yet the result is not a stomp
(the boxes do not even intersect, so no collision is reported at all). -/
theorem stomp_claim_fails :
    enemyC2.alive = true ∧
    enemyC2.y + enemyC2.height < (45 : ℚ) ∧
    (45 : ℚ) < enemyC2.y + enemyC2.height + 10 ∧
    |(4 : ℚ) + 32 / 2 - (enemyC2.x + enemyC2.width / 2)| < enemyC2.width / 2 * 0.6 ∧
    (checkEnemyCollision ⟨4, 45, 32, 40⟩ [enemyC2]).stomped = false ∧
    (checkEnemyCollision ⟨4, 45, 32, 40⟩ [enemyC2]).hit = false := by
  refine ⟨rfl, by norm_num [enemyC2], by norm_num [enemyC2], by norm_num [enemyC2], ?_, ?_⟩ <;>
    norm_num [checkEnemyCollision, intersectsb, Enemy.toRect, enemyC2]

/-- C2 (amended). -/
theorem stomp_band (pb : Rectangle) (e : Enemy) (ha : e.alive = true)
    (hi : intersectsb pb e.toRect = true) :
    (checkEnemyCollision pb [e]).hit = true ∧
    (checkEnemyCollision pb [e]).enemy = some e ∧
    ((checkEnemyCollision pb [e]).stomped = true ↔
      |pb.x + pb.width / 2 - (e.x + e.width / 2)| < e.width * 0.6) ∧
    pb.y < e.y + e.height + 10 := by
  have hi' := hi
  simp only [intersectsb, Enemy.toRect, Bool.and_eq_true, decide_eq_true_eq] at hi'
  have hvert : pb.y < e.y + e.height := hi'.1.2
  have hvert10 : pb.y < e.y + e.height + 10 := by linarith
  have hstep : checkEnemyCollision pb [e] =
      (if pb.y < e.y + e.height + 10 ∧
          |pb.x + pb.width / 2 - (e.x + e.width / 2)| < e.width * 0.6 then
        (⟨true, true, some e⟩ : EnemyCollisionResult)
      else ⟨true, false, some e⟩) := by
    simp [checkEnemyCollision, ha, hi]
  by_cases hband : |pb.x + pb.width / 2 - (e.x + e.width / 2)| < e.width * 0.6
  · rw [hstep, if_pos ⟨hvert10, hband⟩]
    exact ⟨rfl, rfl, by simp [hband], hvert10⟩
  · rw [hstep, if_neg fun hc => hband hc.2]
    exact ⟨rfl, rfl, by simp [hband], hvert10⟩

/-- Witness for C2. -/
theorem stomp_band_witness :
    (checkEnemyCollision ⟨24, 30, 32, 40⟩ [enemyC2]).hit = true :=
  (stomp_band ⟨24, 30, 32, 40⟩ enemyC2 rfl
    (by norm_num [intersectsb, Enemy.toRect, enemyC2])).1

/-- Unfolding of `updatePlatform` on a `moving` platform with a defined
`startX`. -/
theorem updatePlatform_moving (dt : ℚ) (p : Platform) (sx : ℚ)
    (hm : p.type = PlatformType.moving) (hs : p.startX = some sx) :
    updatePlatform dt p =
      if p.x + jsOr p.moveSpeed 60 * dt > sx + jsOr p.moveRange 100 then
        { p with currentVelocityX := some (jsOr p.moveSpeed 60),
                 x := sx + jsOr p.moveRange 100,
                 moveSpeed := some (-|jsOr p.moveSpeed 60|) }
      else if p.x + jsOr p.moveSpeed 60 * dt < sx then
        { p with currentVelocityX := some (jsOr p.moveSpeed 60), x := sx,
                 moveSpeed := some |jsOr p.moveSpeed 60| }
      else
        { p with currentVelocityX := some (jsOr p.moveSpeed 60),
                 x := p.x + jsOr p.moveSpeed 60 * dt } := by
  obtain ⟨px, py, pw, ph, pt, pc, pmr, pms, psx, pcv⟩ := p
  cases hs
  cases hm
  rfl

/-- C4 counterexample fixture: a `moving` platform whose `moveRange` is
negative. -/
def badPlatform : Platform :=
  { x := 0, y := 0, width := 100, height := 16, type := PlatformType.moving,
    moveRange := some (-50), moveSpeed := some 60, startX := some 0 }

/-- C4 counterexample: for `deltaTime = 0` the platform `badPlatform`
(kind `moving`, `startX = some 0`, `moveRange = some (-50)`) ends
`updatePlatform` at `x = -50 < startX`, so the claimed invariant
`startX ≤ x` does not hold for every platform list and `deltaTime ≥ 0`. -/
theorem moving_platform_claim_fails :
    badPlatform.type = PlatformType.moving ∧ badPlatform.startX = some 0 ∧
    (updatePlatform 0 badPlatform).x = -50 ∧ ¬((0 : ℚ) ≤ -50) := by
  refine ⟨rfl, rfl, ?_, by norm_num⟩
  norm_num [updatePlatform, badPlatform, jsOr]

/-- C4 (amended): for every `moving` platform with `startX = some sx` whose
effective `moveRange` (`moveRange ∨ 100`) is nonnegative, and every
`deltaTime ≥ 0`, the updated `x` is clamped into
`[sx, sx + (moveRange ∨ 100)]` exactly; on a frame that clamps at the
upper bound `moveSpeed` becomes negative, on one that clamps at the lower
bound it becomes positive; platforms of any other kind (or without
`startX`) are returned unchanged, and `updatePlatforms` is the element-wise
map of `updatePlatform` over the list. -/
theorem moving_platform_clamps (p : Platform) (dt sx : ℚ) (hdt : 0 ≤ dt)
    (hm : p.type = PlatformType.moving) (hs : p.startX = some sx)
    (hr : 0 ≤ jsOr p.moveRange 100) :
    (sx ≤ (updatePlatform dt p).x ∧
      (updatePlatform dt p).x ≤ sx + jsOr p.moveRange 100) ∧
    (p.x + jsOr p.moveSpeed 60 * dt > sx + jsOr p.moveRange 100 →
      (updatePlatform dt p).x = sx + jsOr p.moveRange 100 ∧
      (updatePlatform dt p).moveSpeed = some (-|jsOr p.moveSpeed 60|) ∧
      -|jsOr p.moveSpeed 60| < 0) ∧
    (p.x + jsOr p.moveSpeed 60 * dt ≤ sx + jsOr p.moveRange 100 →
      p.x + jsOr p.moveSpeed 60 * dt < sx →
      (updatePlatform dt p).x = sx ∧
      (updatePlatform dt p).moveSpeed = some |jsOr p.moveSpeed 60| ∧
      0 < |jsOr p.moveSpeed 60|) ∧
    (∀ q : Platform, ∀ t : ℚ,
      q.type ≠ PlatformType.moving ∨ q.startX = none → updatePlatform t q = q) ∧
    ∀ l : List Platform, ∀ t : ℚ, updatePlatforms l t = l.map (updatePlatform t) := by
  have habs : (0 : ℚ) < |jsOr p.moveSpeed 60| :=
    abs_pos.mpr (jsOr_ne_zero p.moveSpeed 60 (by norm_num))
  have hone : ∀ q : Platform, ∀ t : ℚ,
      q.type ≠ PlatformType.moving ∨ q.startX = none → updatePlatform t q = q := by
    intro q t hq
    rw [updatePlatform, if_neg]
    rcases hq with hq | hq
    · exact fun hc => hq hc.1
    · intro hc
      rw [hq] at hc
      simp at hc
  rw [updatePlatform_moving dt p sx hm hs]
  split_ifs with h1 h2
  · exact ⟨⟨by dsimp only; linarith, le_rfl⟩,
      fun _ => ⟨rfl, rfl, neg_neg_iff_pos.mpr habs⟩,
      fun hc _ => absurd h1 (not_lt.mpr hc), hone, fun l t => rfl⟩
  · exact ⟨⟨le_rfl, by dsimp only; linarith⟩,
      fun hc => absurd hc h1,
      fun _ _ => ⟨rfl, rfl, habs⟩, hone, fun l t => rfl⟩
  · exact ⟨⟨by dsimp only; linarith [not_lt.mp h2], by dsimp only; linarith [not_lt.mp h1]⟩,
      fun hc => absurd hc h1,
      fun _ hc => absurd hc h2, hone, fun l t => rfl⟩

/-- Concrete fixture for the C4 witness: the moving-platform shape the
level parser emits. -/
def movingPlatformW : Platform :=
  { x := 0, y := 0, width := 80, height := 16, type := PlatformType.moving,
    moveRange := some 120, moveSpeed := some 80, startX := some 0,
    currentVelocityX := some 0 }

/-- Witness for C4. -/
theorem moving_platform_clamps_witness :
    (0 : ℚ) ≤ (updatePlatform 1 movingPlatformW).x ∧
    (updatePlatform 1 movingPlatformW).x ≤ 0 + jsOr movingPlatformW.moveRange 100 :=
  (moving_platform_clamps movingPlatformW 1 0 (by norm_num) rfl rfl
    (by norm_num [jsOr, movingPlatformW])).1

/-! Per-phase projection lemmas for `Player.update`, used to track
`velocityY`, `isOnGround` and `canJump` through the frame. -/

theorem timersStep_velocityY (dt : ℚ) (p : Player) :
    (Player.timersStep dt p).velocityY = p.velocityY := by
  simp only [Player.timersStep]
  split_ifs <;> rfl

theorem timersStep_isOnGround (dt : ℚ) (p : Player) :
    (Player.timersStep dt p).isOnGround = p.isOnGround := by
  simp only [Player.timersStep]
  split_ifs <;> rfl

theorem timersStep_canJump (dt : ℚ) (p : Player) :
    (Player.timersStep dt p).canJump = p.canJump := by
  simp only [Player.timersStep]
  split_ifs <;> rfl

theorem dragStep_velocityY (dt : ℚ) (p : Player) :
    (Player.dragStep dt p).velocityY = p.velocityY := by
  unfold Player.dragStep
  split
  · split_ifs <;> rfl
  · rfl

theorem dragStep_isOnGround (dt : ℚ) (p : Player) :
    (Player.dragStep dt p).isOnGround = p.isOnGround := by
  unfold Player.dragStep
  split
  · split_ifs <;> rfl
  · rfl

theorem dragStep_canJump (dt : ℚ) (p : Player) :
    (Player.dragStep dt p).canJump = p.canJump := by
  unfold Player.dragStep
  split
  · split_ifs <;> rfl
  · rfl

theorem horizontalStep_velocityY (dt c : ℚ) (input : InputState) (p : Player) :
    (Player.horizontalStep dt c input p).velocityY = p.velocityY := by
  unfold Player.horizontalStep
  split_ifs <;> rfl

theorem horizontalStep_isOnGround (dt c : ℚ) (input : InputState) (p : Player) :
    (Player.horizontalStep dt c input p).isOnGround = p.isOnGround := by
  unfold Player.horizontalStep
  split_ifs <;> rfl

theorem horizontalStep_canJump (dt c : ℚ) (input : InputState) (p : Player) :
    (Player.horizontalStep dt c input p).canJump = p.canJump := by
  unfold Player.horizontalStep
  split_ifs <;> rfl

theorem clampVelX_velocityY (p : Player) :
    (Player.clampVelX p).velocityY = p.velocityY := rfl

theorem clampVelX_isOnGround (p : Player) :
    (Player.clampVelX p).isOnGround = p.isOnGround := rfl

theorem clampVelX_canJump (p : Player) :
    (Player.clampVelX p).canJump = p.canJump := rfl

/-- When the jump trigger fires (rising edge, latch open, grounded), the
jump step applies the fixed force and clears the grounded state. -/
theorem jumpStep_fires (input : InputState) (p : Player) (hj : input.jump = true)
    (hjp : input.jumpPressed = true) (hc : p.canJump = true) (hg : p.isOnGround = true) :
    Player.jumpStep input p =
      { p with velocityY := Player.JUMP_FORCE, isOnGround := false, canJump := false,
               currentPlatform := none } := by
  unfold Player.jumpStep
  rw [if_pos]
  simp [hj, hjp, hc, hg]

theorem jumpReset_velocityY (input : InputState) (p : Player) :
    (Player.jumpReset input p).velocityY = p.velocityY := by
  unfold Player.jumpReset
  split_ifs <;> rfl

theorem jumpReset_isOnGround (input : InputState) (p : Player) :
    (Player.jumpReset input p).isOnGround = p.isOnGround := by
  unfold Player.jumpReset
  split_ifs <;> rfl

theorem gravityStep_velocityY (dt : ℚ) (p : Player) :
    (Player.gravityStep dt p).velocityY =
      max (-Player.MAX_FALL_SPEED) (p.velocityY - Player.GRAVITY * dt) := rfl

theorem gravityStep_isOnGround (dt : ℚ) (p : Player) :
    (Player.gravityStep dt p).isOnGround = p.isOnGround := rfl

theorem integrateStep_velocityY (dt : ℚ) (p : Player) :
    (Player.integrateStep dt p).velocityY = p.velocityY := rfl

theorem integrateStep_isOnGround (dt : ℚ) (p : Player) :
    (Player.integrateStep dt p).isOnGround = p.isOnGround := rfl

/-- An ascending or resting player passes through the collision phase with
only the pre-loop grounded-state reset applied. -/
theorem collisionStep_of_nonneg (platforms : List Platform) (p : Player)
    (h : 0 ≤ p.velocityY) :
    Player.collisionStep platforms p =
      { p with isOnGround := false, currentPlatform := none } := by
  unfold Player.collisionStep
  exact landingLoop_eq_self_of_nonneg _ platforms h

theorem deathStep_velocityY (p : Player) :
    (Player.deathStep p).velocityY = p.velocityY := by
  unfold Player.deathStep Player.die
  split_ifs <;> rfl

theorem deathStep_isOnGround (p : Player) :
    (Player.deathStep p).isOnGround = p.isOnGround := by
  unfold Player.deathStep Player.die
  split_ifs <;> rfl

/-- The full phase chain of a living player's update. -/
theorem update_chain (p : Player) (dt : ℚ) (input : InputState)
    (platforms : List Platform) (ha : p.isAlive = true) :
    p.update dt input platforms =
      Player.deathStep (Player.collisionStep platforms (Player.integrateStep dt
        (Player.gravityStep dt (Player.jumpReset input (Player.jumpStep input
          (Player.clampVelX (Player.horizontalStep dt
            (if p.isOnGround then 1 else Player.AIR_CONTROL) input
            (Player.dragStep dt (Player.timersStep dt p))))))))) := by
  unfold Player.update
  rw [if_neg (by simp [ha])]

/-- C3 (amended): from rest on a platform (grounded, latch open,
`velocityY = 0`), a rising-edge jump input makes the update set
`velocityY` to the jump force `520` at the jump step, and the gravity
applied later in the same call leaves `velocityY = 520 - 1100·deltaTime`
at the end of the update (positive for `deltaTime ≤ 0.1`, hence no landing
and no fall clamp), with `isOnGround = false`. -/
theorem jump_arc_first_frame (p : Player) (dt : ℚ) (input : InputState)
    (platforms : List Platform) (h0 : 0 < dt) (h1 : dt ≤ 1 / 10)
    (ha : p.isAlive = true) (hg : p.isOnGround = true) (hc : p.canJump = true)
    (hv : p.velocityY = 0) (hj : input.jump = true) (hjp : input.jumpPressed = true) :
    (p.update dt input platforms).velocityY = Player.JUMP_FORCE - Player.GRAVITY * dt ∧
    (p.update dt input platforms).isOnGround = false := by
  rw [update_chain p dt input platforms ha]
  set q4 := Player.clampVelX (Player.horizontalStep dt
    (if p.isOnGround then 1 else Player.AIR_CONTROL) input
    (Player.dragStep dt (Player.timersStep dt p))) with hq4
  have hg4 : q4.isOnGround = true := by
    rw [hq4, clampVelX_isOnGround, horizontalStep_isOnGround, dragStep_isOnGround,
      timersStep_isOnGround, hg]
  have hc4 : q4.canJump = true := by
    rw [hq4, clampVelX_canJump, horizontalStep_canJump, dragStep_canJump,
      timersStep_canJump, hc]
  rw [jumpStep_fires input q4 hj hjp hc4 hg4]
  have hv7 : (Player.gravityStep dt (Player.jumpReset input
      ({ q4 with velocityY := Player.JUMP_FORCE, isOnGround := false, canJump := false, currentPlatform := none } : Player))).velocityY =
      Player.JUMP_FORCE - Player.GRAVITY * dt := by
    rw [gravityStep_velocityY, jumpReset_velocityY]
    show max (-Player.MAX_FALL_SPEED) (Player.JUMP_FORCE - Player.GRAVITY * dt) = _
    rw [max_eq_right]
    unfold Player.MAX_FALL_SPEED Player.JUMP_FORCE Player.GRAVITY
    linarith
  have hvpos : 0 ≤ (Player.integrateStep dt (Player.gravityStep dt (Player.jumpReset input
      ({ q4 with velocityY := Player.JUMP_FORCE, isOnGround := false, canJump := false, currentPlatform := none } : Player)))).velocityY := by
    rw [integrateStep_velocityY, hv7]
    unfold Player.JUMP_FORCE Player.GRAVITY
    linarith
  rw [collisionStep_of_nonneg platforms _ hvpos]
  refine ⟨?_, ?_⟩
  · rw [deathStep_velocityY]
    exact (integrateStep_velocityY dt _).trans hv7
  · rw [deathStep_isOnGround]

/-- Concrete fixtures for C3: a player at rest on a normal platform. -/
def plat3 : Platform :=
  { x := 0, y := 60, width := 120, height := 16, type := PlatformType.normal }

def p3 : Player :=
  { x := 0, y := 76, velocityX := 0, velocityY := 0, isOnGround := true,
    canJump := true, currentPlatform := some plat3 }

def jumpInput : InputState := ⟨false, false, true, true⟩

/-- C3 counterexample: at rest on a normal platform with a rising-edge jump
and `deltaTime = 1/10 ∈ (0, 0.1]`, the update ends with
`velocityY = 410 = 520 - 1100·(1/10)`, not the jump force `520`: gravity
is applied after the jump step inside the same call. -/
theorem jump_claim_fails :
    p3.isAlive = true ∧ p3.isOnGround = true ∧ p3.canJump = true ∧ p3.velocityY = 0 ∧
    jumpInput.jump = true ∧ jumpInput.jumpPressed = true ∧
    (p3.update (1 / 10) jumpInput [plat3]).velocityY = 410 ∧
    Player.JUMP_FORCE ≠ (410 : ℚ) := by
  refine ⟨rfl, rfl, rfl, rfl, rfl, rfl, ?_, by norm_num [Player.JUMP_FORCE]⟩
  norm_num [Player.update, Player.timersStep, Player.dragStep, Player.horizontalStep,
    Player.clampVelX, Player.jumpStep, Player.jumpReset, Player.gravityStep,
    Player.integrateStep, Player.collisionStep, Player.landingLoop, Player.intersectsFromAbove,
    Player.deathStep, Player.die, Player.JUMP_FORCE, Player.GRAVITY, Player.MAX_FALL_SPEED,
    Player.MOVE_SPEED, Player.ACCELERATION, Player.FRICTION, Player.AIR_CONTROL,
    p3, plat3, jumpInput, max_def, min_def]

/-- Witness for C3 (amended): the concrete instance of the rest-and-jump
scenario. -/
theorem jump_arc_first_frame_witness :
    (p3.update (1 / 10) jumpInput [plat3]).velocityY =
      Player.JUMP_FORCE - Player.GRAVITY * (1 / 10) ∧
    (p3.update (1 / 10) jumpInput [plat3]).isOnGround = false :=
  jump_arc_first_frame p3 (1 / 10) jumpInput [plat3] (by norm_num) (by norm_num)
    rfl rfl rfl rfl rfl rfl

/-- Separation of two adjacent runs in a scanned row: either at least one
empty/non-platform column lies between them, or their platform kinds
differ (so the merge rule could not combine them). -/
def runsSeparated (r1 r2 : PlatRun) : Prop :=
  r1.endCol + 1 < r2.startCol ∨ r1.type ≠ r2.type

/-- `addPlatformCell` preserves the row-scan invariants: all runs end
before the next column, all runs span at least one cell, and consecutive
runs (in output order) are separated. -/
theorem addPlatformCell_invariant (acc : List PlatRun) (col : ℕ) (t : PlatformType)
    (hend : ∀ r ∈ acc, r.endCol < col)
    (hspan : ∀ r ∈ acc, r.startCol ≤ r.endCol)
    (hchain : acc.reverse.Chain' runsSeparated) :
    (∀ r ∈ addPlatformCell acc col t, r.endCol < col + 1) ∧
    (∀ r ∈ addPlatformCell acc col t, r.startCol ≤ r.endCol) ∧
    (addPlatformCell acc col t).reverse.Chain' runsSeparated := by
  match acc with
  | [] =>
    refine ⟨?_, ?_, ?_⟩ <;> simp [addPlatformCell]
  | r :: rest =>
    have hendr : r.endCol < col := hend r (List.mem_cons_self r rest)
    by_cases hm : r.endCol + 1 = col ∧ r.type = t
    · have hstep : addPlatformCell (r :: rest) col t = { r with endCol := col } :: rest := by
        simp [addPlatformCell, hm]
      rw [hstep]
      rw [List.reverse_cons] at hchain
      rw [List.chain'_append] at hchain
      obtain ⟨h1, _, h3⟩ := hchain
      refine ⟨?_, ?_, ?_⟩
      · intro q hq
        rcases List.mem_cons.mp hq with rfl | hq
        · exact Nat.lt_succ_self col
        · exact Nat.lt_succ_of_lt (hend q (List.mem_cons_of_mem r hq))
      · intro q hq
        rcases List.mem_cons.mp hq with rfl | hq
        · exact le_trans (hspan r (List.mem_cons_self r rest)) (le_of_lt hendr)
        · exact hspan q (List.mem_cons_of_mem r hq)
      · rw [List.reverse_cons, List.chain'_append]
        refine ⟨h1, List.chain'_singleton _, ?_⟩
        intro x hx y hy
        simp only [List.head?_cons, Option.mem_def, Option.some.injEq] at hy
        subst hy
        exact h3 x hx r (by simp)
    · have hstep : addPlatformCell (r :: rest) col t = ⟨col, col, t⟩ :: r :: rest := by
        simp only [addPlatformCell]
        rw [if_neg hm]
      rw [hstep]
      refine ⟨?_, ?_, ?_⟩
      · intro q hq
        rcases List.mem_cons.mp hq with rfl | hq
        · exact Nat.lt_succ_self col
        · exact Nat.lt_succ_of_lt (hend q hq)
      · intro q hq
        rcases List.mem_cons.mp hq with rfl | hq
        · exact le_refl col
        · exact hspan q hq
      · rw [List.reverse_cons, List.chain'_append]
        refine ⟨hchain, List.chain'_singleton _, ?_⟩
        intro x hx y hy
        simp only [List.head?_cons, Option.mem_def, Option.some.injEq] at hy
        subst hy
        have hx' : r = x := by
          rw [List.reverse_cons, List.getLast?_concat] at hx
          simpa using hx
        subst hx'
        by_cases hlt : r.endCol + 1 < col
        · exact Or.inl hlt
        · have heq : r.endCol + 1 = col := by omega
          exact Or.inr fun hty => hm ⟨heq, hty⟩

/-- The row scan maintains the run invariants from any well-formed
accumulator. -/
theorem scanRowGo_invariant (cells : List Char) :
    ∀ (col : ℕ) (acc : List PlatRun),
    (∀ r ∈ acc, r.endCol < col) →
    (∀ r ∈ acc, r.startCol ≤ r.endCol) →
    acc.reverse.Chain' runsSeparated →
    (∀ r ∈ scanRowGo cells col acc, r.startCol ≤ r.endCol) ∧
    (scanRowGo cells col acc).reverse.Chain' runsSeparated := by
  induction cells with
  | nil =>
    intro col acc _ hspan hchain
    exact ⟨hspan, hchain⟩
  | cons c cs ih =>
    intro col acc hend hspan hchain
    cases hglyph : platformGlyph c with
    | none =>
      have hstep : scanRowGo (c :: cs) col acc = scanRowGo cs (col + 1) acc := by
        simp [scanRowGo, hglyph]
      rw [hstep]
      exact ih (col + 1) acc (fun r hr => Nat.lt_succ_of_lt (hend r hr)) hspan hchain
    | some t =>
      have hstep : scanRowGo (c :: cs) col acc =
          scanRowGo cs (col + 1) (addPlatformCell acc col t) := by
        simp [scanRowGo, hglyph]
      rw [hstep]
      obtain ⟨h1, h2, h3⟩ := addPlatformCell_invariant acc col t hend hspan hchain
      exact ih (col + 1) (addPlatformCell acc col t) h1 h2 h3

/-- Every run of a scanned row spans at least one cell, and consecutive
runs are separated (same-kind adjacent cells are always merged). -/
theorem scanRow_inv (cells : List Char) :
    (∀ r ∈ scanRow cells, r.startCol ≤ r.endCol) ∧
    (scanRow cells).Chain' runsSeparated := by
  obtain ⟨h1, h2⟩ := scanRowGo_invariant cells 0 [] (by simp) (by simp) (by simp)
  refine ⟨?_, h2⟩
  intro r hr
  exact h1 r (by simpa [scanRow] using hr)

/-- Every platform materialized from a row is at least one tile wide. -/
theorem rowPlatforms_width (gy : ℚ) (cells : List Char) :
    ∀ q ∈ rowPlatforms gy cells, TILE_SIZE ≤ q.width := by
  intro q hq
  rw [rowPlatforms, List.mem_map] at hq
  obtain ⟨r, hr, rfl⟩ := hq
  have h1 : (1 : ℚ) ≤ ((r.endCol - r.startCol + 1 : ℕ) : ℚ) := by
    exact_mod_cast Nat.succ_le_succ (Nat.zero_le _)
  have hbase : TILE_SIZE ≤ ((r.endCol - r.startCol + 1 : ℕ) : ℚ) * TILE_SIZE :=
    le_mul_of_one_le_left (by norm_num [TILE_SIZE]) h1
  unfold runPlatform
  split_ifs <;> exact hbase

/-- C7: decoding the level row `"▓▓▓.▓▓"` produces exactly two
normal-platform entities — columns 0–2 (`x = 0`, three tiles wide) and
columns 4–5 (`x = 4` tiles, two tiles wide); in general consecutive
same-kind platform cells of a row are always merged into one run
(consecutive output runs are separated by a gap or a kind change) and every
run spans at least one cell, so every materialized platform is at least one
tile wide. -/
theorem platform_run_merge :
    parseLevelPlatforms ["▓▓▓.▓▓"] =
      [{ x := 0, y := 0, width := 3 * TILE_SIZE, height := TILE_SIZE * 0.4,
         type := PlatformType.normal, color := "" },
       { x := 4 * TILE_SIZE, y := 0, width := 2 * TILE_SIZE, height := TILE_SIZE * 0.4,
         type := PlatformType.normal, color := "" }] ∧
    (∀ cells : List Char, ∀ r ∈ scanRow cells, r.startCol ≤ r.endCol) ∧
    (∀ cells : List Char, (scanRow cells).Chain' runsSeparated) ∧
    (∀ gy : ℚ, ∀ cells : List Char, ∀ q ∈ rowPlatforms gy cells, TILE_SIZE ≤ q.width) := by
  refine ⟨?_, fun cells => (scanRow_inv cells).1, fun cells => (scanRow_inv cells).2,
    rowPlatforms_width⟩
  have hpp : parseLevelPlatforms ["▓▓▓.▓▓"] =
      [runPlatform (((1 - 1 - 0 : ℕ) : ℚ) * TILE_SIZE) ⟨0, 2, PlatformType.normal⟩,
       runPlatform (((1 - 1 - 0 : ℕ) : ℚ) * TILE_SIZE) ⟨4, 5, PlatformType.normal⟩] := rfl
  rw [hpp]
  simp [runPlatform, TILE_SIZE, Platform.mk.injEq]

end NewYear
